import Mathlib

/-!
Verification development for a Polymarket trading bot core:
a streaming-client subscription registry with reconnection policy
(`src/lib/polymarket/websocket.ts`), a market-maker engine
(`src/lib/strategies/market-maker.ts`) and an arbitrage detector
(`src/lib/strategies/arbitrage.ts`), shallowly embedded in Lean.
Decimal-string prices and JavaScript numbers are modelled as rationals;
`toFixed(4)` is modelled as rounding to a rational with denominator 10^4
(ties toward positive infinity, as in the ECMAScript `toFixed` spec).
-/

namespace PolyBot

/-- Model of JavaScript `x.toFixed(4)` read back as a number:
round `q` to the nearest multiple of `1/10^4`, ties toward `+∞`. -/
def toFixed4 (q : ℚ) : ℚ :=
  ((⌊q * 10000 + 1 / 2⌋ : ℤ) : ℚ) / 10000

theorem toFixed4_eq_int_div (q : ℚ) : ∃ n : ℤ, toFixed4 q = (n : ℚ) / 10000 :=
  ⟨⌊q * 10000 + 1 / 2⌋, rfl⟩

theorem toFixed4_mono {a b : ℚ} (h : a ≤ b) : toFixed4 a ≤ toFixed4 b := by
  unfold toFixed4
  have hf : (⌊a * 10000 + 1 / 2⌋ : ℤ) ≤ ⌊b * 10000 + 1 / 2⌋ := by
    apply Int.floor_le_floor
    have : a * 10000 ≤ b * 10000 := by nlinarith
    linarith
  have : ((⌊a * 10000 + 1 / 2⌋ : ℤ) : ℚ) ≤ ((⌊b * 10000 + 1 / 2⌋ : ℤ) : ℚ) := by
    exact_mod_cast hf
  linarith

/-- `toFixed4` is the identity on rationals already expressible with
four decimal places. -/
theorem toFixed4_fixed (n : ℤ) : toFixed4 ((n : ℚ) / 10000) = (n : ℚ) / 10000 := by
  unfold toFixed4
  have h1 : (n : ℚ) / 10000 * 10000 + 1 / 2 = (n : ℚ) + 1 / 2 := by ring
  rw [h1]
  have h2 : ⌊(n : ℚ) + 1 / 2⌋ = n := by
    rw [Int.floor_eq_iff]
    constructor
    · linarith
    · linarith
  rw [h2]

theorem toFixed4_le_of_le_int_div {a : ℚ} {n : ℤ}
    (h : a ≤ (n : ℚ) / 10000) : toFixed4 a ≤ (n : ℚ) / 10000 := by
  have := toFixed4_mono h
  rwa [toFixed4_fixed] at this

theorem le_toFixed4_of_int_div_le {a : ℚ} {n : ℤ}
    (h : (n : ℚ) / 10000 ≤ a) : (n : ℚ) / 10000 ≤ toFixed4 a := by
  have := toFixed4_mono h
  rwa [toFixed4_fixed] at this

/-- `OrderBookEntry` from `types.ts`: a price level. Prices and sizes are
decimal strings on the wire; here they are the rationals they denote. -/
structure OrderBookEntry where
  price : ℚ
  size : ℚ
deriving DecidableEq, Repr

/-- `OrderBook` from `types.ts` (bids best-first descending, asks
best-first ascending). -/
structure OrderBook where
  market : String
  asset_id : String
  bids : List OrderBookEntry
  asks : List OrderBookEntry
  timestamp : String
deriving DecidableEq, Repr

/-- `TradeSignal` from `types.ts`. -/
structure TradeSignal where
  market : String
  asset_id : String
  action : String
  side : String
  price : ℚ
  size : ℚ
  reason : String
deriving DecidableEq, Repr

end PolyBot

namespace PolyBot.MarketMaker

/-- `MarketMakerConfig` from `types.ts`; decimal-string fields
(`orderSize`, `maxPosition`, `minLiquidity`) are the rationals they
denote (the code reads them back with `parseFloat`). -/
structure Config where
  spread : ℚ
  orderSize : ℚ
  maxPosition : ℚ
  minLiquidity : ℚ
  refreshInterval : ℕ
deriving DecidableEq, Repr

/-- The `DEFAULT_CONFIG` of `market-maker.ts`. -/
def defaultConfig : Config :=
  { spread := 2 / 100
    orderSize := 10
    maxPosition := 100
    minLiquidity := 1000
    refreshInterval := 30000 }

/-- The quote pair returned by `calculateQuotes` (both fields are
`toFixed(4)` values). -/
structure Quotes where
  bid : ℚ
  ask : ℚ
deriving DecidableEq, Repr

/-- `MarketMaker.calculateQuotes` from `market-maker.ts` lines 135-157:
`null` when either side of the book is empty; otherwise quotes around the
mid price clipped outside the best of book and formatted to 4 decimals. -/
def calculateQuotes (cfg : Config) (orderBook : OrderBook) : Option Quotes :=
  if orderBook.bids.length = 0 ∨ orderBook.asks.length = 0 then
    none
  else
    let bestBid := (orderBook.bids.headD ⟨0, 0⟩).price
    let bestAsk := (orderBook.asks.headD ⟨0, 0⟩).price
    let midPrice := (bestBid + bestAsk) / 2
    let halfSpread := cfg.spread / 2
    let ourBid := midPrice * (1 - halfSpread)
    let ourAsk := midPrice * (1 + halfSpread)
    let finalBid := min ourBid (bestBid - 1 / 1000)
    let finalAsk := max ourAsk (bestAsk + 1 / 1000)
    some { bid := toFixed4 finalBid, ask := toFixed4 finalAsk }

end PolyBot.MarketMaker

namespace PolyBot.Ws

/-!
Subscription registry of `PolymarketWebSocket` (`websocket.ts`).
`orderBookCallbacks : Map<string, OrderBookCallback[]>` and
`priceCallbacks : Map<string, PriceCallback[]>` are modelled as
insertion-ordered association lists from asset id to the list of
registered handlers; handlers themselves are opaque and identified
by natural numbers.
-/

/-- Insertion-ordered map from asset id to registered handler list,
modelling a JavaScript `Map<string, Callback[]>`. -/
abbrev CbMap := List (String × List ℕ)

/-- `Map.get`: the handler list stored under `k`, if the key is present. -/
def CbMap.get : CbMap → String → Option (List ℕ)
  | [], _ => none
  | p :: t, k => if p.1 = k then some p.2 else CbMap.get t k

/-- `Map.set`: replace in place when the key exists, else append at the
end (JavaScript `Map` preserves insertion order). -/
def CbMap.set : CbMap → String → List ℕ → CbMap
  | [], k, v => [(k, v)]
  | p :: t, k, v => if p.1 = k then (k, v) :: t else p :: CbMap.set t k v

/-- `Map.delete`. -/
def CbMap.del : CbMap → String → CbMap
  | [], _ => []
  | p :: t, k => if p.1 = k then CbMap.del t k else p :: CbMap.del t k

/-- The two callback maps of `PolymarketWebSocket`. -/
structure Registry where
  orderBookCallbacks : CbMap
  priceCallbacks : CbMap
deriving DecidableEq

def Registry.empty : Registry := ⟨[], []⟩

/-- `PolymarketWebSocket.subscribeOrderBook` (lines 112-122), registry
effect: for each asset id, push the callback onto the stored list
(`get(...) || []` then `push` then `set`). -/
def subscribeOrderBook (reg : Registry) (assetIds : List String) (cb : ℕ) :
    Registry :=
  { reg with
    orderBookCallbacks :=
      assetIds.foldl
        (fun m assetId => m.set assetId (((m.get assetId).getD []) ++ [cb]))
        reg.orderBookCallbacks }

/-- `PolymarketWebSocket.subscribePrice` (lines 127-137), registry effect. -/
def subscribePrice (reg : Registry) (assetIds : List String) (cb : ℕ) :
    Registry :=
  { reg with
    priceCallbacks :=
      assetIds.foldl
        (fun m assetId => m.set assetId (((m.get assetId).getD []) ++ [cb]))
        reg.priceCallbacks }

/-- `PolymarketWebSocket.unsubscribe` (lines 142-156): delete each asset id
from both callback maps. -/
def unsubscribe (reg : Registry) (assetIds : List String) : Registry :=
  { orderBookCallbacks :=
      assetIds.foldl (fun m assetId => m.del assetId) reg.orderBookCallbacks
    priceCallbacks :=
      assetIds.foldl (fun m assetId => m.del assetId) reg.priceCallbacks }

/-- `handleMessage` (lines 189-210) on a `book` frame with a payload:
the handlers invoked, in order, for the frame's asset id
(`orderBookCallbacks.get(asset_id) || []`). -/
def dispatchBook (reg : Registry) (assetId : String) : List ℕ :=
  (reg.orderBookCallbacks.get assetId).getD []

/-- `handleMessage` on a `price_change` frame with a payload: the handlers
invoked, in order, for the frame's asset id. -/
def dispatchPrice (reg : Registry) (assetId : String) : List ℕ :=
  (reg.priceCallbacks.get assetId).getD []

/-!
Connection lifecycle of `PolymarketWebSocket`: the reconnection counter,
the `shouldReconnect` flag and the error handler, driven by the transport
events the code installs handlers for (`onopen`, `onerror`, `onclose`)
and the public calls `connect()` / `disconnect()`.  `errorCount` counts
invocations of the registered error handler `onError`; `schedCount`
counts `setTimeout` reconnect schedulings performed by `attemptReconnect`.
-/

structure ConnState where
  reconnectAttempts : ℕ
  maxReconnectAttempts : ℕ
  shouldReconnect : Bool
  errorCount : ℕ
  schedCount : ℕ
deriving DecidableEq, Repr

/-- Initial state of a fresh `PolymarketWebSocket` with default config
(`reconnectAttempts = 0`, `shouldReconnect = true`, max 10). -/
def ConnState.init : ConnState :=
  { reconnectAttempts := 0
    maxReconnectAttempts := 10
    shouldReconnect := true
    errorCount := 0
    schedCount := 0 }

/-- Transport / API events driving the connection lifecycle. -/
inductive ConnEvent where
  /-- `connect()` proceeds past its early-return guards (sets
  `shouldReconnect = true`, line 60; the already-open / already-connecting
  early returns touch none of the fields modelled here). -/
  | connectCall : ConnEvent
  /-- The transport opens: `onopen` fires (resets `reconnectAttempts`). -/
  | openOk : ConnEvent
  /-- A transport error event: `onerror` fires (invokes `onError`). -/
  | errorEvt : ConnEvent
  /-- The transport closes: `onclose` fires, running `attemptReconnect`. -/
  | closeEvt : ConnEvent
  /-- `disconnect()` is called (clears `shouldReconnect`). -/
  | disconnectCall : ConnEvent
deriving DecidableEq, Repr

/-- `PolymarketWebSocket.attemptReconnect` (lines 236-259): no-op after
`disconnect()`; at the attempt ceiling, invoke the error handler and stop;
below it, increment the counter and schedule a delayed `connect()`. -/
def attemptReconnect (s : ConnState) : ConnState :=
  if ¬ s.shouldReconnect then
    s
  else if s.maxReconnectAttempts ≤ s.reconnectAttempts then
    { s with errorCount := s.errorCount + 1 }
  else
    { s with
      reconnectAttempts := s.reconnectAttempts + 1
      schedCount := s.schedCount + 1 }

/-- One event step of the connection lifecycle, following `connect()`
(lines 50-96), `disconnect()` (lines 101-107) and `attemptReconnect`. -/
def connStep (s : ConnState) : ConnEvent → ConnState
  | ConnEvent.connectCall => { s with shouldReconnect := true }
  | ConnEvent.openOk => { s with reconnectAttempts := 0 }
  | ConnEvent.errorEvt => { s with errorCount := s.errorCount + 1 }
  | ConnEvent.closeEvt => attemptReconnect s
  | ConnEvent.disconnectCall => { s with shouldReconnect := false }

/-- A whole run: fold the event trace over the step function. -/
def connRun (s : ConnState) (events : List ConnEvent) : ConnState :=
  events.foldl connStep s

end PolyBot.Ws

namespace PolyBot.MarketMaker

/-- `MarketMakerState` from `market-maker.ts` lines 25-32.  `currentBid`
and `currentAsk` hold the id of an outstanding order, if any. -/
structure MMState where
  assetId : String
  marketId : String
  currentBid : Option String
  currentAsk : Option String
  position : ℤ
  isRunning : Bool
deriving DecidableEq, Repr

/-- The mutable engine state of a `MarketMaker`: the `states` map (as an
insertion-ordered association list), the set of assets with an active
refresh timer, and the shared websocket subscription registry the engine
mutates through `this.ws`. -/
structure Engine where
  states : List (String × MMState)
  timers : List String
  reg : Ws.Registry
deriving DecidableEq

def Engine.empty : Engine := ⟨[], [], Ws.Registry.empty⟩

/-- `this.states.get(assetId)`. -/
def Engine.getState (e : Engine) (assetId : String) : Option MMState :=
  (e.states.find? (fun p => p.1 = assetId)).map (fun p => p.2)

/-- `MarketMaker.start` (lines 47-86): throw without credentials; no-op
if the asset is already managed; otherwise create fresh per-asset state
(`position = 0`, `isRunning = true`), register an order-book subscription
and start a refresh timer.  `cb` identifies the order-book callback
closure created at line 74. -/
def start (hasCredentials : Bool) (e : Engine) (assetId marketId : String)
    (cb : ℕ) : Except String Engine :=
  if ¬ hasCredentials then
    Except.error "Trading credentials required for market making"
  else if (e.states.find? (fun p => p.1 = assetId)).isSome then
    Except.ok e
  else
    Except.ok
      { states := e.states ++
          [(assetId,
            { assetId := assetId
              marketId := marketId
              currentBid := none
              currentAsk := none
              position := 0
              isRunning := true })]
        timers := e.timers ++ [assetId]
        reg := Ws.subscribeOrderBook e.reg [assetId] cb }

/-- `MarketMaker.cancelOrders` (lines 234-253): clear any outstanding
bid/ask order of the asset's state. -/
def cancelOrders (e : Engine) (assetId : String) : Engine :=
  { e with
    states := e.states.map (fun p =>
      if p.1 = assetId then
        (p.1, { p.2 with currentBid := none, currentAsk := none })
      else p) }

/-- `MarketMaker.stop` (lines 91-115): no-op when the asset is not
managed; otherwise clear the timer, cancel outstanding orders,
unsubscribe and drop the per-asset state. -/
def stop (e : Engine) (assetId : String) : Engine :=
  if (e.states.find? (fun p => p.1 = assetId)).isSome then
    let e1 := cancelOrders e assetId
    { states := e1.states.filter (fun p => ¬ p.1 = assetId)
      timers := e1.timers.filter (fun t => ¬ t = assetId)
      reg := Ws.unsubscribe e1.reg [assetId] }
  else
    e

/-- `MarketMaker.generateSignals` (lines 162-203): empty unless the asset
is managed, running, and quotes are computable; then a BUY at the bid
while `position < maxPosition` and a SELL at the ask while
`position > -maxPosition`. -/
def generateSignals (cfg : Config) (e : Engine) (assetId : String)
    (orderBook : OrderBook) : List TradeSignal :=
  match e.getState assetId with
  | none => []
  | some state =>
    if ¬ state.isRunning then []
    else
      match calculateQuotes cfg orderBook with
      | none => []
      | some quotes =>
        (if (state.position : ℚ) < cfg.maxPosition then
          [{ market := state.marketId
             asset_id := assetId
             action := "BUY"
             side := "YES"
             price := quotes.bid
             size := cfg.orderSize
             reason := "Market making - providing bid liquidity" }]
        else []) ++
        (if -cfg.maxPosition < (state.position : ℚ) then
          [{ market := state.marketId
             asset_id := assetId
             action := "SELL"
             side := "YES"
             price := quotes.ask
             size := cfg.orderSize
             reason := "Market making - providing ask liquidity" }]
        else [])

/-- `MarketMaker.refreshOrders` (lines 221-232): no-op unless managed and
running; otherwise cancel outstanding orders. -/
def refreshOrders (e : Engine) (assetId : String) : Engine :=
  match e.getState assetId with
  | none => e
  | some state => if state.isRunning then cancelOrders e assetId else e

/-- Events that mutate a `MarketMaker` over its lifetime
(`handleOrderBookUpdate` only reads state and logs, so it is identity on
the engine). -/
inductive MMEvent where
  | startEvt (hasCredentials : Bool) (assetId marketId : String) (cb : ℕ) :
      MMEvent
  | stopEvt (assetId : String) : MMEvent
  | refreshEvt (assetId : String) : MMEvent
  | bookUpdateEvt (assetId : String) : MMEvent
deriving DecidableEq, Repr

/-- One engine step; a `start` that throws leaves the engine unchanged. -/
def mmStep (e : Engine) : MMEvent → Engine
  | MMEvent.startEvt creds assetId marketId cb =>
    match start creds e assetId marketId cb with
    | Except.ok e1 => e1
    | Except.error _ => e
  | MMEvent.stopEvt assetId => stop e assetId
  | MMEvent.refreshEvt assetId => refreshOrders e assetId
  | MMEvent.bookUpdateEvt _ => e

/-- A whole engine run from the fresh engine. -/
def mmRun (events : List MMEvent) : Engine :=
  events.foldl mmStep Engine.empty

end PolyBot.MarketMaker

namespace PolyBot

/-- Left-pad a digit string with zeros to length 4. -/
def padZero4 (s : String) : String :=
  String.mk (List.replicate (4 - s.length) (Char.ofNat 48)) ++ s

/-- Render `x.toFixed(4)` of a (non-NaN) number as a string. -/
def ratToFixed4Str (q : ℚ) : String :=
  let n : ℤ := ⌊q * 10000 + 1 / 2⌋
  let sign := if n < 0 then "-" else ""
  let m := n.natAbs
  sign ++ toString (m / 10000) ++ "." ++ padZero4 (toString (m % 10000))

end PolyBot

namespace PolyBot.Arb

/-- `ArbitrageConfig` from `types.ts`; the decimal-string `orderSize` is
the rational it denotes (the code reads it back with `parseFloat`). -/
structure Config where
  minSpread : ℚ
  maxSlippage : ℚ
  orderSize : ℚ
deriving DecidableEq, Repr

/-- The `DEFAULT_CONFIG` of `arbitrage.ts`. -/
def defaultConfig : Config :=
  { minSpread := 1 / 100
    maxSlippage := 5 / 1000
    orderSize := 50 }

/-- `MonitoredMarket` from `arbitrage.ts` lines 72-79. -/
structure MonitoredMarket where
  marketId : String
  yesAssetId : String
  noAssetId : String
  yesPrice : ℚ
  noPrice : ℚ
  lastUpdate : ℤ
deriving DecidableEq, Repr

/-- `ArbitrageOpportunity` from `types.ts`. -/
structure Opportunity where
  markets : List String
  spread : ℚ
  expectedProfit : ℚ
  signals : List TradeSignal
deriving DecidableEq, Repr

/-- `ArbitrageDetector.checkYesNoArbitrage` (`arbitrage.ts` lines
174-221): `null` when either leg is still unknown (zero); otherwise,
with `spread = 1 - (yesPrice + noPrice)`, an opportunity with two BUY
signals exactly when `spread > minSpread` and
`spread * orderSize - maxSlippage * 2 > 0`. -/
def checkYesNoArbitrage (cfg : Config) (market : MonitoredMarket) :
    Option Opportunity :=
  if market.yesPrice = 0 ∨ market.noPrice = 0 then
    none
  else
    let totalPrice := market.yesPrice + market.noPrice
    let spread := 1 - totalPrice
    if cfg.minSpread < spread then
      let expectedProfit := spread * cfg.orderSize - cfg.maxSlippage * 2
      if 0 < expectedProfit then
        some
          { markets := [market.marketId]
            spread := spread
            expectedProfit := expectedProfit
            signals :=
              [{ market := market.marketId
                 asset_id := market.yesAssetId
                 action := "BUY"
                 side := "YES"
                 price := toFixed4 market.yesPrice
                 size := cfg.orderSize
                 reason := "YES/NO arbitrage - total price " ++
                   ratToFixed4Str totalPrice ++ " < 1.0" },
               { market := market.marketId
                 asset_id := market.noAssetId
                 action := "BUY"
                 side := "NO"
                 price := toFixed4 market.noPrice
                 size := cfg.orderSize
                 reason := "YES/NO arbitrage - total price " ++
                   ratToFixed4Str totalPrice ++ " < 1.0" }] }
      else
        none
    else
      none

end PolyBot.Arb

namespace PolyBot.Js

/-!
String-level model of the `calculateQuotes` data path: order-book prices
are the raw wire strings, `parseFloat` may produce `NaN`, and `NaN`
propagates through arithmetic, `Math.min` / `Math.max`, and `toFixed`.
A JavaScript number is modelled as `Option ℚ`, with `none` as `NaN`.
-/

/-- A JavaScript number: `none` is `NaN`. -/
abbrev JsNum := Option ℚ

def jsAdd : JsNum → JsNum → JsNum
  | some a, some b => some (a + b)
  | _, _ => none

def jsSub : JsNum → JsNum → JsNum
  | some a, some b => some (a - b)
  | _, _ => none

def jsMul : JsNum → JsNum → JsNum
  | some a, some b => some (a * b)
  | _, _ => none

/-- Division by a nonzero literal (only `/ 2` occurs in the code). -/
def jsHalf : JsNum → JsNum
  | some a => some (a / 2)
  | none => none

/-- `Math.min`: `NaN` when either argument is `NaN`. -/
def jsMin : JsNum → JsNum → JsNum
  | some a, some b => some (min a b)
  | _, _ => none

/-- `Math.max`: `NaN` when either argument is `NaN`. -/
def jsMax : JsNum → JsNum → JsNum
  | some a, some b => some (max a b)
  | _, _ => none

/-- `x.toFixed(4)`: `"NaN"` for `NaN`, otherwise the 4-decimal string. -/
def jsToFixed4 : JsNum → String
  | none => "NaN"
  | some q => ratToFixed4Str q

/-- Consume a maximal digit prefix, accumulating value and digit count. -/
def parseDigits : List Char → ℕ → ℕ → ℕ × ℕ × List Char
  | [], acc, cnt => (acc, cnt, [])
  | c :: cs, acc, cnt =>
    if c.isDigit then parseDigits cs (acc * 10 + (c.toNat - 48)) (cnt + 1)
    else (acc, cnt, c :: cs)

/-- Model of JavaScript `parseFloat` on simple decimal strings: optional
sign, digits, optional fraction; trailing characters are ignored; `NaN`
(`none`) when no digit is found. -/
def parseFloatJs (s : String) : JsNum :=
  let cs := (s.data).dropWhile (fun c => c = ' ')
  let signAndRest : ℚ × List Char :=
    match cs with
    | '-' :: t => (-1, t)
    | '+' :: t => (1, t)
    | _ => (1, cs)
  let sign := signAndRest.1
  let p1 := parseDigits signAndRest.2 0 0
  let ip := p1.1
  let n1 := p1.2.1
  match p1.2.2 with
  | '.' :: t =>
    let p2 := parseDigits t 0 0
    let fp := p2.1
    let n2 := p2.2.1
    if n1 = 0 ∧ n2 = 0 then none
    else some (sign * ((ip : ℚ) + (fp : ℚ) / (10 ^ n2)))
  | _ => if n1 = 0 then none else some (sign * (ip : ℚ))

/-- An order-book entry carrying the raw wire strings. -/
structure EntryS where
  price : String
  size : String
deriving DecidableEq, Repr

/-- An order book carrying raw wire strings. -/
structure OrderBookS where
  market : String
  asset_id : String
  bids : List EntryS
  asks : List EntryS
  timestamp : String
deriving DecidableEq, Repr

/-- The string quote pair actually returned by `calculateQuotes`. -/
structure QuotesS where
  bid : String
  ask : String
deriving DecidableEq, Repr

/-- `MarketMaker.calculateQuotes` (lines 135-157) at the string level:
the only `null` return is the emptiness check; prices are `parseFloat`ed
with no validation, so non-numeric prices flow through as `NaN` and are
formatted by `toFixed(4)` as `"NaN"`. -/
def calculateQuotesS (spread : ℚ) (orderBook : OrderBookS) :
    Option QuotesS :=
  if orderBook.bids.length = 0 ∨ orderBook.asks.length = 0 then
    none
  else
    let bestBid := parseFloatJs (orderBook.bids.headD ⟨"", ""⟩).price
    let bestAsk := parseFloatJs (orderBook.asks.headD ⟨"", ""⟩).price
    let midPrice := jsHalf (jsAdd bestBid bestAsk)
    let halfSpread : ℚ := spread / 2
    let ourBid := jsMul midPrice (some (1 - halfSpread))
    let ourAsk := jsMul midPrice (some (1 + halfSpread))
    let finalBid := jsMin ourBid (jsSub bestBid (some (1 / 1000)))
    let finalAsk := jsMax ourAsk (jsAdd bestAsk (some (1 / 1000)))
    some { bid := jsToFixed4 finalBid, ask := jsToFixed4 finalAsk }

end PolyBot.Js

namespace PolyBot

/-! ### Shared evaluation lemmas -/

/-- Evaluate `toFixed4` once the enclosing integer bracket is known. -/
theorem toFixed4_eval (q : ℚ) (n : ℤ) (h1 : (n : ℚ) ≤ q * 10000 + 1 / 2)
    (h2 : q * 10000 + 1 / 2 < (n : ℚ) + 1) : toFixed4 q = (n : ℚ) / 10000 := by
  unfold toFixed4
  congr 1
  have : ⌊q * 10000 + 1 / 2⌋ = n := by
    rw [Int.floor_eq_iff]
    constructor
    · exact h1
    · exact_mod_cast h2
  exact_mod_cast this

/-- `calculateQuotes` on a book with non-empty sides, in closed form. -/
theorem calculateQuotes_cons (cfg : MarketMaker.Config)
    (mk aid ts : String) (b a : OrderBookEntry)
    (bs as : List OrderBookEntry) :
    MarketMaker.calculateQuotes cfg ⟨mk, aid, b :: bs, a :: as, ts⟩ =
      some
        { bid := toFixed4
            (min ((b.price + a.price) / 2 * (1 - cfg.spread / 2))
              (b.price - 1 / 1000))
          ask := toFixed4
            (max ((b.price + a.price) / 2 * (1 + cfg.spread / 2))
              (a.price + 1 / 1000)) } := by
  unfold MarketMaker.calculateQuotes
  simp

end PolyBot

namespace PolyBot

/-- C2: for every order book, `calculateQuotes` returns `none` exactly
when a side of the book is empty; otherwise it returns the 4-decimal
formatting of `min (mid * (1 - spread/2)) (bestBid - 0.001)` as the bid
and of `max (mid * (1 + spread/2)) (bestAsk + 0.001)` as the ask, where
`mid = (bestBid + bestAsk) / 2` and both outputs are exact 4-decimal
values. -/
theorem C2_calculateQuotes_formula (cfg : MarketMaker.Config)
    (ob : OrderBook) :
    (MarketMaker.calculateQuotes cfg ob = none ↔
      ob.bids = [] ∨ ob.asks = []) ∧
    (∀ b a bs as, ob.bids = b :: bs → ob.asks = a :: as →
      ∃ nb na : ℤ,
        MarketMaker.calculateQuotes cfg ob =
          some { bid := (nb : ℚ) / 10000, ask := (na : ℚ) / 10000 } ∧
        (nb : ℚ) / 10000 =
          toFixed4 (min ((b.price + a.price) / 2 * (1 - cfg.spread / 2))
            (b.price - 1 / 1000)) ∧
        (na : ℚ) / 10000 =
          toFixed4 (max ((b.price + a.price) / 2 * (1 + cfg.spread / 2))
            (a.price + 1 / 1000))) := by
  constructor
  · unfold MarketMaker.calculateQuotes
    split_ifs with h
    · simpa [List.length_eq_zero] using h
    · simp only [List.length_eq_zero] at h
      push_neg at h
      simp [h.1, h.2]
  · intro b a bs as hb ha
    obtain ⟨mk, aid, bids, asks, ts⟩ := ob
    simp only at hb ha
    subst hb ha
    rw [calculateQuotes_cons]
    obtain ⟨nb, hnb⟩ := toFixed4_eq_int_div
      (min ((b.price + a.price) / 2 * (1 - cfg.spread / 2))
        (b.price - 1 / 1000))
    obtain ⟨na, hna⟩ := toFixed4_eq_int_div
      (max ((b.price + a.price) / 2 * (1 + cfg.spread / 2))
        (a.price + 1 / 1000))
    exact ⟨nb, na, by rw [hnb, hna], hnb.symm, hna.symm⟩

/-- Witness for C2, the spec scenario: spread `0.02`, bids `[0.40]`,
asks `[0.44]` give bid `0.399` and ask `0.441`. -/
theorem C2_calculateQuotes_formula_witness :
    MarketMaker.calculateQuotes MarketMaker.defaultConfig
      ⟨"m", "a", [⟨4 / 10, 1⟩], [⟨44 / 100, 1⟩], "t"⟩ =
      some { bid := (399 : ℚ) / 1000, ask := (441 : ℚ) / 1000 } := by
  obtain ⟨-, h⟩ := C2_calculateQuotes_formula MarketMaker.defaultConfig
    ⟨"m", "a", [⟨4 / 10, 1⟩], [⟨44 / 100, 1⟩], "t"⟩
  obtain ⟨nb, na, heq, hbid, hask⟩ := h _ _ _ _ rfl rfl
  rw [heq]
  have hmin : min (((4 : ℚ) / 10 + 44 / 100) / 2 *
      (1 - MarketMaker.defaultConfig.spread / 2)) (4 / 10 - 1 / 1000) =
      399 / 1000 := by
    rw [min_eq_right]
    · norm_num
    · simp only [MarketMaker.defaultConfig]
      norm_num
  have hmax : max (((4 : ℚ) / 10 + 44 / 100) / 2 *
      (1 + MarketMaker.defaultConfig.spread / 2)) (44 / 100 + 1 / 1000) =
      441 / 1000 := by
    rw [max_eq_right]
    · norm_num
    · simp only [MarketMaker.defaultConfig]
      norm_num
  rw [hmin] at hbid
  rw [hmax] at hask
  have hb : (nb : ℚ) / 10000 = 399 / 1000 := by
    rw [hbid]
    have := toFixed4_eval ((399 : ℚ) / 1000) 3990 (by norm_num) (by norm_num)
    rw [this]
    norm_num
  have ha : (na : ℚ) / 10000 = 441 / 1000 := by
    rw [hask]
    have := toFixed4_eval ((441 : ℚ) / 1000) 4410 (by norm_num) (by norm_num)
    rw [this]
    norm_num
  rw [hb, ha]

/-- Counterexample to C3 as stated: with the default spread, the book
`bids = [0.40087]`, `asks = [0.5]` yields `finalBid = 0.39987`, which
`toFixed(4)` rounds up to `0.3999 > bestBid - 0.001`; so the returned bid
is not `≤ bestBid - 0.001`. -/
theorem C3_quotes_outside_book_cex :
    MarketMaker.calculateQuotes MarketMaker.defaultConfig
      ⟨"m", "a", [⟨40087 / 100000, 1⟩], [⟨1 / 2, 1⟩], "t"⟩ =
      some { bid := (3999 : ℚ) / 10000, ask := (501 : ℚ) / 1000 } ∧
    ¬ ((3999 : ℚ) / 10000 ≤ 40087 / 100000 - 1 / 1000) := by
  constructor
  · rw [calculateQuotes_cons]
    have hmin : min (((40087 : ℚ) / 100000 + 1 / 2) / 2 *
        (1 - MarketMaker.defaultConfig.spread / 2)) (40087 / 100000 - 1 / 1000) =
        39987 / 100000 := by
      rw [min_eq_right]
      · norm_num
      · simp only [MarketMaker.defaultConfig]
        norm_num
    have hmax : max (((40087 : ℚ) / 100000 + 1 / 2) / 2 *
        (1 + MarketMaker.defaultConfig.spread / 2)) (1 / 2 + 1 / 1000) =
        501 / 1000 := by
      rw [max_eq_right]
      · norm_num
      · simp only [MarketMaker.defaultConfig]
        norm_num
    rw [hmin, hmax]
    have h1 := toFixed4_eval ((39987 : ℚ) / 100000) 3999 (by norm_num)
      (by norm_num)
    have h2 := toFixed4_eval ((501 : ℚ) / 1000) 5010 (by norm_num) (by norm_num)
    rw [h1, h2]
    norm_num
  · norm_num

/-- C3 (amended): for every order book with non-empty bid and ask sides
whose best bid and best ask are exact 4-decimal values with
`bestBid ≤ bestAsk`, the quote pair satisfies `bid ≤ bestBid - 0.001`,
`ask ≥ bestAsk + 0.001` and `bid < ask`.  (The 4-decimal and uncrossed
hypotheses are forced by the rounding of `toFixed(4)`, which can push the
returned bid above `bestBid - 0.001` for finer-grained prices.) -/
theorem C3_quotes_outside_book (cfg : MarketMaker.Config) (ob : OrderBook)
    (b a : OrderBookEntry) (bs as : List OrderBookEntry)
    (hb : ob.bids = b :: bs) (ha : ob.asks = a :: as) (nb na : ℤ)
    (hbn : b.price = (nb : ℚ) / 10000) (han : a.price = (na : ℚ) / 10000)
    (hcross : b.price ≤ a.price) :
    ∃ q, MarketMaker.calculateQuotes cfg ob = some q ∧
      q.bid ≤ b.price - 1 / 1000 ∧ a.price + 1 / 1000 ≤ q.ask ∧
      q.bid < q.ask := by
  obtain ⟨mk, aid, bids, asks, ts⟩ := ob
  simp only at hb ha
  subst hb ha
  rw [calculateQuotes_cons]
  refine ⟨_, rfl, ?_, ?_, ?_⟩
  · have hrepr : b.price - 1 / 1000 = ((nb - 10 : ℤ) : ℚ) / 10000 := by
      rw [hbn]
      push_cast
      ring
    rw [hrepr]
    apply toFixed4_le_of_le_int_div
    rw [← hrepr]
    exact min_le_right _ _
  · have hrepr : a.price + 1 / 1000 = ((na + 10 : ℤ) : ℚ) / 10000 := by
      rw [han]
      push_cast
      ring
    rw [hrepr]
    apply le_toFixed4_of_int_div_le
    rw [← hrepr]
    exact le_max_right _ _
  · have h1 : toFixed4 (min ((b.price + a.price) / 2 * (1 - cfg.spread / 2))
        (b.price - 1 / 1000)) ≤ b.price - 1 / 1000 := by
      have hrepr : b.price - 1 / 1000 = ((nb - 10 : ℤ) : ℚ) / 10000 := by
        rw [hbn]
        push_cast
        ring
      rw [hrepr]
      apply toFixed4_le_of_le_int_div
      rw [← hrepr]
      exact min_le_right _ _
    have h2 : a.price + 1 / 1000 ≤
        toFixed4 (max ((b.price + a.price) / 2 * (1 + cfg.spread / 2))
          (a.price + 1 / 1000)) := by
      have hrepr : a.price + 1 / 1000 = ((na + 10 : ℤ) : ℚ) / 10000 := by
        rw [han]
        push_cast
        ring
      rw [hrepr]
      apply le_toFixed4_of_int_div_le
      rw [← hrepr]
      exact le_max_right _ _
    have : b.price - 1 / 1000 < a.price + 1 / 1000 := by linarith
    calc toFixed4 (min ((b.price + a.price) / 2 * (1 - cfg.spread / 2))
          (b.price - 1 / 1000)) ≤ b.price - 1 / 1000 := h1
      _ < a.price + 1 / 1000 := this
      _ ≤ _ := h2

/-- Witness for the amended C3 at the book `bids = [0.40]`,
`asks = [0.44]` with the default config. -/
theorem C3_quotes_outside_book_witness :
    ∃ q, MarketMaker.calculateQuotes MarketMaker.defaultConfig
      ⟨"m", "a", [⟨4 / 10, 1⟩], [⟨44 / 100, 1⟩], "t"⟩ = some q ∧
      q.bid ≤ 4 / 10 - 1 / 1000 ∧ (44 : ℚ) / 100 + 1 / 1000 ≤ q.ask ∧
      q.bid < q.ask := by
  have := C3_quotes_outside_book MarketMaker.defaultConfig
    ⟨"m", "a", [⟨4 / 10, 1⟩], [⟨44 / 100, 1⟩], "t"⟩
    ⟨4 / 10, 1⟩ ⟨44 / 100, 1⟩ [] [] rfl rfl 4000 4400 (by norm_num)
    (by norm_num) (by norm_num)
  simpa using this

/-- C1: `checkYesNoArbitrage` returns `none` whenever either leg price is
zero; otherwise, with `spread = 1 - (yesPrice + noPrice)` and
`expectedProfit = spread * orderSize - maxSlippage * 2`, it returns an
opportunity exactly when `spread > minSpread` and `expectedProfit > 0`,
and that opportunity carries that spread, that expected profit, the
single market id and exactly two BUY signals (YES leg then NO leg) priced
at the respective current leg prices (formatted to 4 decimals) with the
configured order size; in every other case (including `total > 1`) it
returns `none`. -/
theorem C1_checkYesNoArbitrage_spec (cfg : Arb.Config)
    (m : Arb.MonitoredMarket) :
    ((m.yesPrice = 0 ∨ m.noPrice = 0) →
      Arb.checkYesNoArbitrage cfg m = none) ∧
    (m.yesPrice ≠ 0 → m.noPrice ≠ 0 →
      ((cfg.minSpread < 1 - (m.yesPrice + m.noPrice) ∧
        0 < (1 - (m.yesPrice + m.noPrice)) * cfg.orderSize -
          cfg.maxSlippage * 2) →
        ∃ opp, Arb.checkYesNoArbitrage cfg m = some opp ∧
          opp.markets = [m.marketId] ∧
          opp.spread = 1 - (m.yesPrice + m.noPrice) ∧
          opp.expectedProfit =
            (1 - (m.yesPrice + m.noPrice)) * cfg.orderSize -
              cfg.maxSlippage * 2 ∧
          opp.signals.map
              (fun s => (s.asset_id, s.action, s.side, s.price, s.size)) =
            [(m.yesAssetId, "BUY", "YES", toFixed4 m.yesPrice,
              cfg.orderSize),
             (m.noAssetId, "BUY", "NO", toFixed4 m.noPrice,
              cfg.orderSize)]) ∧
      (¬ (cfg.minSpread < 1 - (m.yesPrice + m.noPrice) ∧
          0 < (1 - (m.yesPrice + m.noPrice)) * cfg.orderSize -
            cfg.maxSlippage * 2) →
        Arb.checkYesNoArbitrage cfg m = none)) := by
  constructor
  · intro h
    simp only [Arb.checkYesNoArbitrage]
    rw [if_pos h]
  · intro hy hn
    simp only [Arb.checkYesNoArbitrage]
    rw [if_neg (by tauto)]
    constructor
    · rintro ⟨h1, h2⟩
      rw [if_pos h1, if_pos h2]
      exact ⟨_, rfl, rfl, rfl, rfl, by simp⟩
    · intro h
      by_cases h1 : cfg.minSpread < 1 - (m.yesPrice + m.noPrice)
      · rw [if_pos h1, if_neg (by tauto)]
      · rw [if_neg h1]

/-- Witness for C1, the spec scenario: `yesPrice = 0.48`,
`noPrice = 0.47` with the default config give spread `0.05`, expected
profit `2.49`, and two BUY signals at `0.48` and `0.47`. -/
theorem C1_checkYesNoArbitrage_spec_witness :
    ∃ opp, Arb.checkYesNoArbitrage Arb.defaultConfig
        ⟨"m1", "ya", "na", 12 / 25, 47 / 100, 0⟩ = some opp ∧
      opp.spread = 1 / 20 ∧ opp.expectedProfit = 249 / 100 ∧
      opp.signals.map
          (fun s => (s.asset_id, s.action, s.side, s.price, s.size)) =
        [("ya", "BUY", "YES", (12 : ℚ) / 25, (50 : ℚ)),
         ("na", "BUY", "NO", (47 : ℚ) / 100, (50 : ℚ))] := by
  obtain ⟨-, h⟩ := C1_checkYesNoArbitrage_spec Arb.defaultConfig
    ⟨"m1", "ya", "na", 12 / 25, 47 / 100, 0⟩
  obtain ⟨hpos, -⟩ := h (by norm_num) (by norm_num)
  obtain ⟨opp, heq, hm, hs, he, hsig⟩ := hpos
    ⟨by simp only [Arb.defaultConfig]; norm_num,
     by simp only [Arb.defaultConfig]; norm_num⟩
  refine ⟨opp, heq, ?_, ?_, ?_⟩
  · rw [hs]
    norm_num
  · rw [he]
    simp only [Arb.defaultConfig]
    norm_num
  · rw [hsig]
    have h48 : toFixed4 ((12 : ℚ) / 25) = 12 / 25 := by
      have := toFixed4_eval ((12 : ℚ) / 25) 4800 (by norm_num) (by norm_num)
      rw [this]
      norm_num
    have h47 : toFixed4 ((47 : ℚ) / 100) = 47 / 100 := by
      have := toFixed4_eval ((47 : ℚ) / 100) 4700 (by norm_num) (by norm_num)
      rw [this]
      norm_num
    simp only [Arb.defaultConfig]
    rw [h48, h47]

/-! ### Registry map lemmas -/

theorem cbGet_set_self (m : Ws.CbMap) (k : String) (v : List ℕ) :
    (Ws.CbMap.set m k v).get k = some v := by
  induction m with
  | nil => simp [Ws.CbMap.set, Ws.CbMap.get]
  | cons p t ih =>
    by_cases hpk : p.1 = k
    · simp [Ws.CbMap.set, Ws.CbMap.get, hpk]
    · simp [Ws.CbMap.set, Ws.CbMap.get, hpk, ih]

theorem cbGet_set_other (m : Ws.CbMap) (k k' : String) (v : List ℕ)
    (h : ¬ k' = k) : (Ws.CbMap.set m k v).get k' = Ws.CbMap.get m k' := by
  have hk : ¬ k = k' := fun hh => h hh.symm
  induction m with
  | nil => simp [Ws.CbMap.set, Ws.CbMap.get, hk]
  | cons p t ih =>
    by_cases hpk : p.1 = k
    · have hpk' : ¬ p.1 = k' := by
        rw [hpk]
        exact hk
      simp [Ws.CbMap.set, Ws.CbMap.get, hpk, hpk', hk]
    · by_cases hpk' : p.1 = k'
      · simp [Ws.CbMap.set, Ws.CbMap.get, hpk, hpk', h, hk]
      · simp [Ws.CbMap.set, Ws.CbMap.get, hpk, hpk', ih]

theorem cbGet_del_self (m : Ws.CbMap) (k : String) :
    (Ws.CbMap.del m k).get k = none := by
  induction m with
  | nil => simp [Ws.CbMap.del, Ws.CbMap.get]
  | cons p t ih =>
    by_cases hpk : p.1 = k
    · simp [Ws.CbMap.del, hpk, ih]
    · simp [Ws.CbMap.del, Ws.CbMap.get, hpk, ih]

theorem cbGet_del_other (m : Ws.CbMap) (k k' : String) (h : ¬ k' = k) :
    (Ws.CbMap.del m k).get k' = Ws.CbMap.get m k' := by
  induction m with
  | nil => simp [Ws.CbMap.del]
  | cons p t ih =>
    by_cases hpk : p.1 = k
    · have hne : ¬ p.1 = k' := by
        rw [hpk]
        exact fun hh => h hh.symm
      have hk : ¬ k = k' := fun hh => h hh.symm
      simp [Ws.CbMap.del, Ws.CbMap.get, hpk, hne, hk, ih]
    · by_cases hpk' : p.1 = k'
      · simp [Ws.CbMap.del, Ws.CbMap.get, hpk, hpk', h]
      · simp [Ws.CbMap.del, Ws.CbMap.get, hpk, hpk', ih]

theorem cbDel_comm (m : Ws.CbMap) (k1 k2 : String) :
    Ws.CbMap.del (Ws.CbMap.del m k1) k2 =
      Ws.CbMap.del (Ws.CbMap.del m k2) k1 := by
  induction m with
  | nil => simp [Ws.CbMap.del]
  | cons p t ih =>
    by_cases h1 : p.1 = k1
    · by_cases h2 : p.1 = k2
      · have hk : k1 = k2 := by
          rw [← h1, h2]
        subst hk
        rfl
      · have hk : ¬ k1 = k2 := by
          rw [← h1]
          exact h2
        simp [Ws.CbMap.del, h1, h2, hk, ih]
    · by_cases h2 : p.1 = k2
      · have hk : ¬ k2 = k1 := by
          rw [← h2]
          exact h1
        simp [Ws.CbMap.del, h1, h2, hk, ih]
      · simp [Ws.CbMap.del, h1, h2, ih]

theorem cbDel_idem (m : Ws.CbMap) (k : String) :
    Ws.CbMap.del (Ws.CbMap.del m k) k = Ws.CbMap.del m k := by
  induction m with
  | nil => simp [Ws.CbMap.del]
  | cons p t ih =>
    by_cases hpk : p.1 = k <;> simp [Ws.CbMap.del, hpk, ih]

theorem cbDel_foldl (m : Ws.CbMap) (ids : List String) (k : String) :
    Ws.CbMap.del (ids.foldl Ws.CbMap.del m) k =
      ids.foldl Ws.CbMap.del (Ws.CbMap.del m k) := by
  induction ids generalizing m with
  | nil => simp
  | cons i t ih => simp [List.foldl_cons, ih, cbDel_comm]

theorem cbFoldlDel_idem (m : Ws.CbMap) (ids : List String) :
    ids.foldl Ws.CbMap.del (ids.foldl Ws.CbMap.del m) =
      ids.foldl Ws.CbMap.del m := by
  induction ids generalizing m with
  | nil => simp
  | cons i t ih =>
    simp only [List.foldl_cons]
    rw [← cbDel_foldl, ih, cbDel_foldl, cbDel_idem]

theorem cbGet_foldl_del (m : Ws.CbMap) (ids : List String) (a : String) :
    (ids.foldl Ws.CbMap.del m).get a =
      if a ∈ ids then none else Ws.CbMap.get m a := by
  induction ids generalizing m with
  | nil => simp
  | cons i t ih =>
    simp only [List.foldl_cons, ih]
    by_cases hai : a = i
    · subst hai
      by_cases hat : a ∈ t
      · simp [hat]
      · simp [hat, cbGet_del_self]
    · by_cases hat : a ∈ t
      · simp [hai, hat]
      · simp [hai, hat, cbGet_del_other m i a hai]

theorem cbGet_foldl_push (ids : List String) (m : Ws.CbMap) (cb : ℕ)
    (a : String) :
    ((ids.foldl
        (fun m assetId =>
          Ws.CbMap.set m assetId (((Ws.CbMap.get m assetId).getD []) ++ [cb]))
        m).get a).getD [] =
      (Ws.CbMap.get m a).getD [] ++ List.replicate (ids.count a) cb := by
  induction ids generalizing m with
  | nil => simp
  | cons i t ih =>
    simp only [List.foldl_cons, ih]
    by_cases hia : i = a
    · subst hia
      rw [cbGet_set_self]
      simp [List.replicate_succ, List.count_cons_self]
    · rw [cbGet_set_other _ _ _ _ (fun hh => hia hh.symm)]
      simp [List.count_cons_of_ne (fun hh => hia hh.symm)]

/-- C8: for every list of asset ids, `unsubscribe` removes every
order-book handler and every price handler registered for each id in the
list, so a subsequent inbound book or price frame for such an asset is
dispatched to zero handlers. -/
theorem C8_unsubscribe_removes_all (reg : Ws.Registry)
    (assetIds : List String) (a : String) (h : a ∈ assetIds) :
    (Ws.unsubscribe reg assetIds).orderBookCallbacks.get a = none ∧
    (Ws.unsubscribe reg assetIds).priceCallbacks.get a = none ∧
    Ws.dispatchBook (Ws.unsubscribe reg assetIds) a = [] ∧
    Ws.dispatchPrice (Ws.unsubscribe reg assetIds) a = [] := by
  have hob : (Ws.unsubscribe reg assetIds).orderBookCallbacks.get a = none := by
    simp [Ws.unsubscribe, cbGet_foldl_del, h]
  have hpr : (Ws.unsubscribe reg assetIds).priceCallbacks.get a = none := by
    simp [Ws.unsubscribe, cbGet_foldl_del, h]
  exact ⟨hob, hpr, by simp [Ws.dispatchBook, hob],
    by simp [Ws.dispatchPrice, hpr]⟩

/-- Witness for C8: unsubscribing `"A"` after registering an order-book
handler and a price handler for it leaves zero handlers dispatched. -/
theorem C8_unsubscribe_removes_all_witness :
    Ws.dispatchBook
      (Ws.unsubscribe
        (Ws.subscribePrice
          (Ws.subscribeOrderBook Ws.Registry.empty ["A"] 1) ["A"] 2) ["A"])
      "A" = [] ∧
    Ws.dispatchPrice
      (Ws.unsubscribe
        (Ws.subscribePrice
          (Ws.subscribeOrderBook Ws.Registry.empty ["A"] 1) ["A"] 2) ["A"])
      "A" = [] := by
  obtain ⟨-, -, h3, h4⟩ := C8_unsubscribe_removes_all
    (Ws.subscribePrice (Ws.subscribeOrderBook Ws.Registry.empty ["A"] 1)
      ["A"] 2) ["A"] "A" (by simp)
  exact ⟨h3, h4⟩

/-- Counterexample to C5 as stated: subscribing twice with identical
arguments does not leave the registry unchanged — the handler is stored
twice and a subsequent book frame for the asset invokes it twice, not
once. -/
theorem C5_subscribe_not_setlike_cex :
    (Ws.subscribeOrderBook
        (Ws.subscribeOrderBook Ws.Registry.empty ["A"] 7) ["A"] 7 ≠
      Ws.subscribeOrderBook Ws.Registry.empty ["A"] 7) ∧
    (Ws.dispatchBook
        (Ws.subscribeOrderBook
          (Ws.subscribeOrderBook Ws.Registry.empty ["A"] 7) ["A"] 7)
        "A").count 7 = 2 := by
  decide

/-- C5 (amended): subscription-registry mutations are additive, not
set-like — each `subscribeOrderBook` / `subscribePrice` call appends the
handler once per occurrence of the asset in the id list, so calling twice
with identical arguments registers the handler twice and a subsequent
frame invokes it twice; duplicate `unsubscribe` calls, in contrast, are
harmless no-ops. -/
theorem C5_subscribe_additive (reg : Ws.Registry) (assetIds : List String)
    (cb : ℕ) (a : String) :
    Ws.dispatchBook (Ws.subscribeOrderBook reg assetIds cb) a =
      Ws.dispatchBook reg a ++ List.replicate (assetIds.count a) cb ∧
    Ws.dispatchPrice (Ws.subscribePrice reg assetIds cb) a =
      Ws.dispatchPrice reg a ++ List.replicate (assetIds.count a) cb ∧
    Ws.unsubscribe (Ws.unsubscribe reg assetIds) assetIds =
      Ws.unsubscribe reg assetIds := by
  refine ⟨?_, ?_, ?_⟩
  · simp [Ws.dispatchBook, Ws.subscribeOrderBook, cbGet_foldl_push]
  · simp [Ws.dispatchPrice, Ws.subscribePrice, cbGet_foldl_push]
  · obtain ⟨ob, pr⟩ := reg
    simp [Ws.unsubscribe, cbFoldlDel_idem]

theorem find?_append_none {α : Type} (p : α → Bool) (l1 l2 : List α)
    (h : l1.find? p = none) : (l1 ++ l2).find? p = l2.find? p := by
  induction l1 with
  | nil => simp
  | cons x t ih =>
    cases hx : p x with
    | true => simp [List.find?_cons, hx] at h
    | false =>
      simp only [List.find?_cons, hx] at h
      simp only [List.cons_append, List.find?_cons, hx]
      exact ih h

/-- C7: `MarketMaker.start` throws when trading credentials are absent
and then mutates nothing; for an asset already under management it is a
no-op; and after a first successful `start` a second `start` for the
same asset leaves the engine unchanged, with exactly one tracked state
entry, exactly one registered order-book handler, and exactly one more
refresh timer than before. -/
theorem C7_start_spec (e : MarketMaker.Engine) (assetId marketId : String)
    (cb : ℕ) :
    (MarketMaker.start false e assetId marketId cb =
        Except.error "Trading credentials required for market making" ∧
      MarketMaker.mmStep e
        (MarketMaker.MMEvent.startEvt false assetId marketId cb) = e) ∧
    (∀ st, e.getState assetId = some st →
      ∀ marketId' cb', MarketMaker.start true e assetId marketId' cb' =
        Except.ok e) ∧
    (e.getState assetId = none →
      ∀ e1, MarketMaker.start true e assetId marketId cb = Except.ok e1 →
        (∀ marketId' cb', MarketMaker.start true e1 assetId marketId' cb' =
          Except.ok e1) ∧
        (e1.states.filter (fun p => p.1 = assetId)).length = 1 ∧
        Ws.dispatchBook e1.reg assetId =
          Ws.dispatchBook e.reg assetId ++ [cb] ∧
        e1.timers.count assetId = e.timers.count assetId + 1) := by
  refine ⟨⟨?_, ?_⟩, ?_, ?_⟩
  · simp [MarketMaker.start]
  · simp [MarketMaker.mmStep, MarketMaker.start]
  · intro st hst marketId' cb'
    have hfind : (e.states.find? (fun p => p.1 = assetId)).isSome := by
      simp only [MarketMaker.Engine.getState] at hst
      cases hf : e.states.find? (fun p => p.1 = assetId) with
      | none => rw [hf] at hst; simp at hst
      | some p => simp [hf]
    simp [MarketMaker.start, hfind]
  · intro hnone e1 he1
    have hfind : e.states.find? (fun p => p.1 = assetId) = none := by
      simp only [MarketMaker.Engine.getState] at hnone
      cases hf : e.states.find? (fun p => p.1 = assetId) with
      | none => rfl
      | some p => rw [hf] at hnone; simp at hnone
    have he1' : e1 =
        { states := e.states ++
            [(assetId,
              { assetId := assetId
                marketId := marketId
                currentBid := none
                currentAsk := none
                position := 0
                isRunning := true })]
          timers := e.timers ++ [assetId]
          reg := Ws.subscribeOrderBook e.reg [assetId] cb } := by
      simp [MarketMaker.start, hfind] at he1
      exact he1.symm
    subst he1'
    refine ⟨?_, ?_, ?_, ?_⟩
    · intro marketId' cb'
      have happ : (e.states ++
          [(assetId,
            ({ assetId := assetId
               marketId := marketId
               currentBid := none
               currentAsk := none
               position := 0
               isRunning := true } : MarketMaker.MMState))]).find?
            (fun p => p.1 = assetId) ≠ none := by
        rw [find?_append_none _ _ _ hfind]
        simp
      simp only [MarketMaker.start]
      rw [if_neg (by simp), if_pos (by simp [Option.isSome_iff_ne_none,
        happ])]
    · rw [List.filter_append]
      have h1 : e.states.filter (fun p => p.1 = assetId) = [] := by
        rw [List.filter_eq_nil_iff]
        intro p hp
        have := List.find?_eq_none.mp hfind p hp
        simpa using this
      rw [h1]
      simp
    · simp only [Ws.dispatchBook, Ws.subscribeOrderBook]
      have := cbGet_foldl_push [assetId] e.reg.orderBookCallbacks cb assetId
      simpa using this
    · simp [List.count_append]

/-- C6: `generateSignals` is empty when the asset is not managed, not
running, or quotes cannot be computed; otherwise it contains a BUY signal
at the computed bid exactly when the position is strictly below
`maxPosition`, a SELL signal at the computed ask exactly when the
position is strictly above `-maxPosition`, each with the configured order
size, and both signals are present simultaneously when both guards
hold. -/
theorem C6_generateSignals_spec (cfg : MarketMaker.Config)
    (e : MarketMaker.Engine) (assetId : String) (ob : OrderBook) :
    ((e.getState assetId = none ∨
      (∃ st, e.getState assetId = some st ∧ st.isRunning = false) ∨
      MarketMaker.calculateQuotes cfg ob = none) →
      MarketMaker.generateSignals cfg e assetId ob = []) ∧
    (∀ st q, e.getState assetId = some st → st.isRunning = true →
      MarketMaker.calculateQuotes cfg ob = some q →
      ((∃ s ∈ MarketMaker.generateSignals cfg e assetId ob,
          s.action = "BUY" ∧ s.price = q.bid ∧ s.size = cfg.orderSize) ↔
        (st.position : ℚ) < cfg.maxPosition) ∧
      ((∃ s ∈ MarketMaker.generateSignals cfg e assetId ob,
          s.action = "SELL" ∧ s.price = q.ask ∧ s.size = cfg.orderSize) ↔
        -cfg.maxPosition < (st.position : ℚ)) ∧
      (((st.position : ℚ) < cfg.maxPosition ∧
        -cfg.maxPosition < (st.position : ℚ)) →
        (MarketMaker.generateSignals cfg e assetId ob).length = 2)) := by
  constructor
  · intro h
    rcases h with h | ⟨st, hst, hrun⟩ | h
    · simp [MarketMaker.generateSignals, h]
    · simp [MarketMaker.generateSignals, hst, hrun]
    · cases hst : e.getState assetId with
      | none => simp [MarketMaker.generateSignals, hst]
      | some st =>
        cases hrun : st.isRunning with
        | false => simp [MarketMaker.generateSignals, hst, hrun]
        | true => simp [MarketMaker.generateSignals, hst, hrun, h]
  · intro st q hst hrun hq
    simp only [MarketMaker.generateSignals, hst, hrun, hq]
    by_cases hb : (st.position : ℚ) < cfg.maxPosition <;>
      by_cases ha : -cfg.maxPosition < (st.position : ℚ) <;>
      simp [hb, ha]

/-- Witness for C6: a freshly started asset with the default config and
the scenario book emits both a BUY at `0.399` and a SELL at `0.441`. -/
theorem C6_generateSignals_spec_witness :
    (∃ s ∈ MarketMaker.generateSignals MarketMaker.defaultConfig
        (MarketMaker.mmRun [MarketMaker.MMEvent.startEvt true "a1" "m1" 7])
        "a1" ⟨"m", "a", [⟨4 / 10, 1⟩], [⟨44 / 100, 1⟩], "t"⟩,
      s.action = "BUY" ∧ s.price = 399 / 1000 ∧ s.size = 10) ∧
    (∃ s ∈ MarketMaker.generateSignals MarketMaker.defaultConfig
        (MarketMaker.mmRun [MarketMaker.MMEvent.startEvt true "a1" "m1" 7])
        "a1" ⟨"m", "a", [⟨4 / 10, 1⟩], [⟨44 / 100, 1⟩], "t"⟩,
      s.action = "SELL" ∧ s.price = 441 / 1000 ∧ s.size = 10) ∧
    (MarketMaker.generateSignals MarketMaker.defaultConfig
        (MarketMaker.mmRun [MarketMaker.MMEvent.startEvt true "a1" "m1" 7])
        "a1" ⟨"m", "a", [⟨4 / 10, 1⟩], [⟨44 / 100, 1⟩], "t"⟩).length = 2 := by
  have hstate : (MarketMaker.mmRun
      [MarketMaker.MMEvent.startEvt true "a1" "m1" 7]).getState "a1" =
      some ⟨"a1", "m1", none, none, 0, true⟩ := by
    simp [MarketMaker.mmRun, MarketMaker.mmStep, MarketMaker.start,
      MarketMaker.Engine.empty, MarketMaker.Engine.getState]
  have hq : MarketMaker.calculateQuotes MarketMaker.defaultConfig
      ⟨"m", "a", [⟨4 / 10, 1⟩], [⟨44 / 100, 1⟩], "t"⟩ =
      some { bid := (399 : ℚ) / 1000, ask := (441 : ℚ) / 1000 } := by
    rw [calculateQuotes_cons]
    have hmin : min (((4 : ℚ) / 10 + 44 / 100) / 2 *
        (1 - MarketMaker.defaultConfig.spread / 2)) (4 / 10 - 1 / 1000) =
        399 / 1000 := by
      rw [min_eq_right]
      · norm_num
      · simp only [MarketMaker.defaultConfig]
        norm_num
    have hmax : max (((4 : ℚ) / 10 + 44 / 100) / 2 *
        (1 + MarketMaker.defaultConfig.spread / 2)) (44 / 100 + 1 / 1000) =
        441 / 1000 := by
      rw [max_eq_right]
      · norm_num
      · simp only [MarketMaker.defaultConfig]
        norm_num
    rw [hmin, hmax]
    have h1 := toFixed4_eval ((399 : ℚ) / 1000) 3990 (by norm_num) (by norm_num)
    have h2 := toFixed4_eval ((441 : ℚ) / 1000) 4410 (by norm_num) (by norm_num)
    rw [h1, h2]
    norm_num
  obtain ⟨-, h⟩ := C6_generateSignals_spec MarketMaker.defaultConfig
    (MarketMaker.mmRun [MarketMaker.MMEvent.startEvt true "a1" "m1" 7])
    "a1" ⟨"m", "a", [⟨4 / 10, 1⟩], [⟨44 / 100, 1⟩], "t"⟩
  obtain ⟨hbuy, hsell, hlen⟩ := h ⟨"a1", "m1", none, none, 0, true⟩
    { bid := (399 : ℚ) / 1000, ask := (441 : ℚ) / 1000 } hstate rfl hq
  have hposb : ((0 : ℤ) : ℚ) < MarketMaker.defaultConfig.maxPosition := by
    simp only [MarketMaker.defaultConfig]
    norm_num
  have hposa : -MarketMaker.defaultConfig.maxPosition < ((0 : ℤ) : ℚ) := by
    simp only [MarketMaker.defaultConfig]
    norm_num
  refine ⟨?_, ?_, hlen ⟨hposb, hposa⟩⟩
  · have := hbuy.mpr hposb
    simpa [MarketMaker.defaultConfig] using this
  · have := hsell.mpr hposa
    simpa [MarketMaker.defaultConfig] using this

/-- Witness for C7: from the fresh engine, `start` without credentials
throws, and two `start` calls with credentials leave one state entry, one
registered handler and one timer. -/
theorem C7_start_spec_witness :
    MarketMaker.start false MarketMaker.Engine.empty "a1" "m1" 5 =
      Except.error "Trading credentials required for market making" ∧
    ∃ e1, MarketMaker.start true MarketMaker.Engine.empty "a1" "m1" 5 =
        Except.ok e1 ∧
      MarketMaker.start true e1 "a1" "m1" 5 = Except.ok e1 ∧
      (e1.states.filter (fun p => p.1 = "a1")).length = 1 ∧
      Ws.dispatchBook e1.reg "a1" = [5] ∧
      e1.timers.count "a1" = 1 := by
  obtain ⟨⟨herr, -⟩, -, hfresh⟩ :=
    C7_start_spec MarketMaker.Engine.empty "a1" "m1" 5
  refine ⟨herr, ?_⟩
  have hnone : MarketMaker.Engine.empty.getState "a1" = none := rfl
  have hok : MarketMaker.start true MarketMaker.Engine.empty "a1" "m1" 5 =
      Except.ok
        { states := [("a1",
            { assetId := "a1"
              marketId := "m1"
              currentBid := none
              currentAsk := none
              position := 0
              isRunning := true })]
          timers := ["a1"]
          reg := Ws.subscribeOrderBook Ws.Registry.empty ["a1"] 5 } := by
    simp [MarketMaker.start, MarketMaker.Engine.empty]
  obtain ⟨hidem, hlen, hdisp, htc⟩ := hfresh hnone _ hok
  refine ⟨_, hok, hidem "m1" 5, hlen, ?_, ?_⟩
  · rw [hdisp]
    rfl
  · rw [htc]
    rfl

/-! ### Market-maker engine invariants -/

theorem cancelOrders_position (e : MarketMaker.Engine) (assetId : String)
    (h : ∀ p ∈ e.states, p.2.position = 0) :
    ∀ p ∈ (MarketMaker.cancelOrders e assetId).states, p.2.position = 0 := by
  intro p hp
  simp only [MarketMaker.cancelOrders] at hp
  obtain ⟨q, hq, rfl⟩ := List.mem_map.mp hp
  by_cases hqa : q.1 = assetId
  · simpa [hqa] using h q hq
  · simpa [hqa] using h q hq

theorem mmStep_preserves_position (e : MarketMaker.Engine)
    (ev : MarketMaker.MMEvent) (h : ∀ p ∈ e.states, p.2.position = 0) :
    ∀ p ∈ (MarketMaker.mmStep e ev).states, p.2.position = 0 := by
  cases ev with
  | startEvt creds assetId marketId cb =>
    cases creds with
    | false => simpa [MarketMaker.mmStep, MarketMaker.start] using h
    | true =>
      by_cases hfind : (e.states.find? (fun p => p.1 = assetId)).isSome
      · simpa [MarketMaker.mmStep, MarketMaker.start, hfind] using h
      · intro p hp
        simp [MarketMaker.mmStep, MarketMaker.start, hfind] at hp
        rcases hp with h1 | h1
        · exact h p h1
        · subst h1
          rfl
  | stopEvt assetId =>
    by_cases hfind : (e.states.find? (fun p => p.1 = assetId)).isSome
    · simp only [MarketMaker.mmStep, MarketMaker.stop, if_pos hfind]
      intro p hp
      exact cancelOrders_position e assetId h p (List.mem_of_mem_filter hp)
    · simpa [MarketMaker.mmStep, MarketMaker.stop, hfind] using h
  | refreshEvt assetId =>
    simp only [MarketMaker.mmStep, MarketMaker.refreshOrders]
    cases hst : e.getState assetId with
    | none => exact h
    | some st =>
      cases hrun : st.isRunning with
      | false => simpa [hrun] using h
      | true => simpa [hrun] using cancelOrders_position e assetId h
  | bookUpdateEvt assetId => exact h

theorem mmRun_position (events : List MarketMaker.MMEvent) :
    ∀ p ∈ (MarketMaker.mmRun events).states, p.2.position = 0 := by
  have key : ∀ (e : MarketMaker.Engine),
      (∀ p ∈ e.states, p.2.position = 0) →
      ∀ p ∈ (events.foldl MarketMaker.mmStep e).states, p.2.position = 0 := by
    induction events with
    | nil => intro e h; exact h
    | cons ev t ih =>
      intro e h
      exact ih _ (mmStep_preserves_position e ev h)
  exact key MarketMaker.Engine.empty (by simp [MarketMaker.Engine.empty])

/-- C9: in every reachable engine state, every tracked per-asset state
has position `0` — `start` initialises it to `0` and no engine operation
ever changes it — so with any `maxPosition > 0` the position guards in
`generateSignals` never suppress a signal: whenever quotes are
computable for a running asset, both the BUY and the SELL signal are
emitted. -/
theorem C9_position_always_zero (events : List MarketMaker.MMEvent) :
    (∀ p ∈ (MarketMaker.mmRun events).states, p.2.position = 0) ∧
    (∀ (cfg : MarketMaker.Config) (assetId : String) (ob : OrderBook)
      (st : MarketMaker.MMState) (q : MarketMaker.Quotes),
      0 < cfg.maxPosition →
      (MarketMaker.mmRun events).getState assetId = some st →
      st.isRunning = true →
      MarketMaker.calculateQuotes cfg ob = some q →
      ∃ sb ss,
        MarketMaker.generateSignals cfg (MarketMaker.mmRun events) assetId
          ob = [sb, ss] ∧
        sb.action = "BUY" ∧ sb.price = q.bid ∧
        ss.action = "SELL" ∧ ss.price = q.ask) := by
  refine ⟨mmRun_position events, ?_⟩
  intro cfg assetId ob st q hmax hst hrun hq
  have hmem : (assetId, st) ∈ (MarketMaker.mmRun events).states := by
    simp only [MarketMaker.Engine.getState] at hst
    cases hf : (MarketMaker.mmRun events).states.find?
        (fun p => p.1 = assetId) with
    | none => rw [hf] at hst; simp at hst
    | some p =>
      rw [hf] at hst
      simp at hst
      have hpmem := List.mem_of_find?_eq_some hf
      have hkey : p.1 = assetId := by
        have := List.find?_some hf
        simpa using this
      have hps : p = (assetId, st) := Prod.ext hkey hst
      rwa [hps] at hpmem
  have hpos : st.position = 0 := mmRun_position events (assetId, st) hmem
  have hlist : MarketMaker.generateSignals cfg (MarketMaker.mmRun events)
      assetId ob =
      [{ market := st.marketId
         asset_id := assetId
         action := "BUY"
         side := "YES"
         price := q.bid
         size := cfg.orderSize
         reason := "Market making - providing bid liquidity" },
       { market := st.marketId
         asset_id := assetId
         action := "SELL"
         side := "YES"
         price := q.ask
         size := cfg.orderSize
         reason := "Market making - providing ask liquidity" }] := by
    have hneg : -cfg.maxPosition < ((0 : ℤ) : ℚ) := by
      push_cast
      linarith
    simp [MarketMaker.generateSignals, hst, hrun, hq, hpos, hmax, hneg]
  exact ⟨_, _, hlist, rfl, rfl, rfl, rfl⟩

/-- Witness for C9: after a single `start`, the tracked position is `0`
and both signals are emitted on the scenario book. -/
theorem C9_position_always_zero_witness :
    (∀ p ∈ (MarketMaker.mmRun
        [MarketMaker.MMEvent.startEvt true "a1" "m1" 7]).states,
      p.2.position = 0) ∧
    ∃ sb ss, MarketMaker.generateSignals MarketMaker.defaultConfig
        (MarketMaker.mmRun [MarketMaker.MMEvent.startEvt true "a1" "m1" 7])
        "a1" ⟨"m", "a", [⟨4 / 10, 1⟩], [⟨44 / 100, 1⟩], "t"⟩ = [sb, ss] ∧
      sb.action = "BUY" ∧ sb.price = 399 / 1000 ∧
      ss.action = "SELL" ∧ ss.price = 441 / 1000 := by
  obtain ⟨hinv, h⟩ := C9_position_always_zero
    [MarketMaker.MMEvent.startEvt true "a1" "m1" 7]
  refine ⟨hinv, ?_⟩
  have hstate : (MarketMaker.mmRun
      [MarketMaker.MMEvent.startEvt true "a1" "m1" 7]).getState "a1" =
      some ⟨"a1", "m1", none, none, 0, true⟩ := by
    simp [MarketMaker.mmRun, MarketMaker.mmStep, MarketMaker.start,
      MarketMaker.Engine.empty, MarketMaker.Engine.getState]
  have hq : MarketMaker.calculateQuotes MarketMaker.defaultConfig
      ⟨"m", "a", [⟨4 / 10, 1⟩], [⟨44 / 100, 1⟩], "t"⟩ =
      some { bid := (399 : ℚ) / 1000, ask := (441 : ℚ) / 1000 } := by
    rw [calculateQuotes_cons]
    have hmin : min (((4 : ℚ) / 10 + 44 / 100) / 2 *
        (1 - MarketMaker.defaultConfig.spread / 2)) (4 / 10 - 1 / 1000) =
        399 / 1000 := by
      rw [min_eq_right]
      · norm_num
      · simp only [MarketMaker.defaultConfig]
        norm_num
    have hmax : max (((4 : ℚ) / 10 + 44 / 100) / 2 *
        (1 + MarketMaker.defaultConfig.spread / 2)) (44 / 100 + 1 / 1000) =
        441 / 1000 := by
      rw [max_eq_right]
      · norm_num
      · simp only [MarketMaker.defaultConfig]
        norm_num
    rw [hmin, hmax]
    have h1 := toFixed4_eval ((399 : ℚ) / 1000) 3990 (by norm_num) (by norm_num)
    have h2 := toFixed4_eval ((441 : ℚ) / 1000) 4410 (by norm_num) (by norm_num)
    rw [h1, h2]
    norm_num
  exact h MarketMaker.defaultConfig "a1"
    ⟨"m", "a", [⟨4 / 10, 1⟩], [⟨44 / 100, 1⟩], "t"⟩
    ⟨"a1", "m1", none, none, 0, true⟩
    { bid := (399 : ℚ) / 1000, ask := (441 : ℚ) / 1000 }
    (by simp only [MarketMaker.defaultConfig]; norm_num) hstate rfl hq

/-- C4 (amended): every successful open resets the reconnect counter to
zero; an unexpected close below the attempt ceiling increments the
counter and schedules a reconnect; an unexpected close at the ceiling
leaves the counter, schedules nothing, and invokes the error handler
exactly once for that close; a close following `disconnect` changes
nothing; additionally every transport error event also invokes the same
error handler, so the handler is not limited to one invocation per run. -/
theorem C4_reconnect_policy (s : Ws.ConnState) :
    ((Ws.connStep s Ws.ConnEvent.openOk).reconnectAttempts = 0 ∧
      (Ws.connStep s Ws.ConnEvent.openOk).errorCount = s.errorCount ∧
      (Ws.connStep s Ws.ConnEvent.openOk).schedCount = s.schedCount) ∧
    (s.shouldReconnect = true →
      s.reconnectAttempts < s.maxReconnectAttempts →
      Ws.connStep s Ws.ConnEvent.closeEvt =
        { s with reconnectAttempts := s.reconnectAttempts + 1
                 schedCount := s.schedCount + 1 }) ∧
    (s.shouldReconnect = true →
      s.maxReconnectAttempts ≤ s.reconnectAttempts →
      Ws.connStep s Ws.ConnEvent.closeEvt =
        { s with errorCount := s.errorCount + 1 }) ∧
    (s.shouldReconnect = false → Ws.connStep s Ws.ConnEvent.closeEvt = s) ∧
    ((Ws.connStep s Ws.ConnEvent.errorEvt).errorCount = s.errorCount + 1) ∧
    ((Ws.connStep s Ws.ConnEvent.disconnectCall).shouldReconnect = false) := by
  refine ⟨⟨rfl, rfl, rfl⟩, ?_, ?_, ?_, rfl, rfl⟩
  · intro hsr hlt
    simp [Ws.connStep, Ws.attemptReconnect, hsr, not_le.mpr hlt]
  · intro hsr hge
    simp [Ws.connStep, Ws.attemptReconnect, hsr, hge]
  · intro hsr
    simp [Ws.connStep, Ws.attemptReconnect, hsr]

/-- Witness for the amended C4 at concrete states: a close below the
ceiling increments and schedules; a close at the ceiling fires the error
handler once and schedules nothing. -/
theorem C4_reconnect_policy_witness :
    Ws.connStep Ws.ConnState.init Ws.ConnEvent.closeEvt =
      { reconnectAttempts := 1
        maxReconnectAttempts := 10
        shouldReconnect := true
        errorCount := 0
        schedCount := 1 } ∧
    Ws.connStep
      { reconnectAttempts := 10
        maxReconnectAttempts := 10
        shouldReconnect := true
        errorCount := 0
        schedCount := 10 } Ws.ConnEvent.closeEvt =
      { reconnectAttempts := 10
        maxReconnectAttempts := 10
        shouldReconnect := true
        errorCount := 1
        schedCount := 10 } := by
  constructor
  · exact ((C4_reconnect_policy Ws.ConnState.init).2.1 rfl
      (by simp [Ws.ConnState.init]))
  · exact ((C4_reconnect_policy _).2.2.1 rfl (by norm_num))

/-- Counterexample to C4 as stated: a realistic run — one successful
open, then a drop and ten failed reconnect attempts, each failure firing
a transport error event and then a close event — ends with the counter
at `10` although it saw 11 unexpected closes (so not every close
incremented it), and with the error handler invoked 11 times (ten
transport errors plus the terminal max-attempts error), not exactly
once. -/
theorem C4_reconnect_policy_cex :
    Ws.ConnState.reconnectAttempts (Ws.connRun Ws.ConnState.init
      ([Ws.ConnEvent.connectCall, Ws.ConnEvent.openOk,
        Ws.ConnEvent.closeEvt] ++
        (List.replicate 10
          [Ws.ConnEvent.errorEvt, Ws.ConnEvent.closeEvt]).flatten)) = 10 ∧
    Ws.ConnState.errorCount (Ws.connRun Ws.ConnState.init
      ([Ws.ConnEvent.connectCall, Ws.ConnEvent.openOk,
        Ws.ConnEvent.closeEvt] ++
        (List.replicate 10
          [Ws.ConnEvent.errorEvt, Ws.ConnEvent.closeEvt]).flatten)) = 11 ∧
    ¬ (11 = 1) := by
  decide

/-- C10: `calculateQuotes` decides `none` solely from the emptiness of
the two sides and never validates price content — for a book with
non-empty sides whose best-price strings are not numeric it still
returns a quote object whose price strings are the `toFixed(4)`
formatting of `NaN`, rather than `none`. -/
theorem C10_quotes_no_price_validation :
    (∀ (spread : ℚ) (ob : Js.OrderBookS),
      Js.calculateQuotesS spread ob = none ↔
        ob.bids = [] ∨ ob.asks = []) ∧
    Js.calculateQuotesS (2 / 100)
      ⟨"m", "a", [⟨"abc", "1"⟩], [⟨"xyz", "1"⟩], "t"⟩ =
      some { bid := "NaN", ask := "NaN" } := by
  constructor
  · intro spread ob
    unfold Js.calculateQuotesS
    split_ifs with h
    · simpa [List.length_eq_zero] using h
    · simp only [List.length_eq_zero] at h
      push_neg at h
      simp [h.1, h.2]
  · rfl

end PolyBot
